import Mathlib

/-!
Shallow embedding of the EduMetro note retrieval and engagement subsystem
(`noteshare_backend/notes/views.py`): queryset construction with
social-engagement annotations and approval-based visibility, the
like/bookmark toggle actions, the download-count increment, rating and
comment creation with per-(user, note) uniqueness, and the note update
restriction.  Database tables are modelled as lists of rows; each list
entry stands for one stored row.
-/

namespace EduMetro

/-- A registered user.  The `is_staff` flag mirrors Django's staff bit. -/
structure User where
  id : Nat
  is_staff : Bool
  deriving Repr, DecidableEq

/-- A note row (`Note` model): the fields the views read or write.
`created_at` is a timestamp modelled as a natural number. -/
structure Note where
  id : Nat
  uploader : Nat
  title : String
  description : String
  file : String
  is_approved : Bool
  created_at : Nat
  download_count : Nat
  deriving Repr, DecidableEq

/-- A `Like` row: one per (user, note) engagement. -/
structure Like where
  user : Nat
  note : Nat
  deriving Repr, DecidableEq

/-- A `Bookmark` row: one per (user, note) engagement. -/
structure Bookmark where
  user : Nat
  note : Nat
  deriving Repr, DecidableEq

/-- A `StarRating` row: a user's star rating of a note. -/
structure StarRating where
  user : Nat
  note : Nat
  stars : Nat
  deriving Repr, DecidableEq

/-- A `Comment` row: a user's comment on a note. -/
structure Comment where
  user : Nat
  note : Nat
  text : String
  deriving Repr, DecidableEq

/-- The relational store backing the subsystem. -/
structure DB where
  notes : List Note
  likes : List Like
  bookmarks : List Bookmark
  star_ratings : List StarRating
  comments : List Comment
  deriving Repr, DecidableEq

/-- The requesting viewer: anonymous, or an authenticated user. -/
inductive Viewer where
  | anon : Viewer
  | auth : User → Viewer
  deriving Repr, DecidableEq

/-- Django's `user.is_authenticated`. -/
def Viewer.isAuthenticated : Viewer → Bool
  | Viewer.anon => false
  | Viewer.auth _ => true

/-- Django's `user.is_staff`; `AnonymousUser.is_staff` is `False`. -/
def Viewer.isStaff : Viewer → Bool
  | Viewer.anon => false
  | Viewer.auth u => u.is_staff

/-- The `NoteViewSet` actions relevant to queryset construction. -/
inductive Action where
  | list : Action
  | retrieve : Action
  | download : Action
  | toggle_like : Action
  | toggle_bookmark : Action
  | update : Action
  | patch : Action
  deriving Repr, DecidableEq

/-- Like rows of a given note (`note.likes`). -/
def likesOf (db : DB) (nid : Nat) : List Like :=
  db.likes.filter (fun l => l.note == nid)

/-- Bookmark rows of a given note (`note.bookmarks`). -/
def bookmarksOf (db : DB) (nid : Nat) : List Bookmark :=
  db.bookmarks.filter (fun b => b.note == nid)

/-- Star values of a note's ratings (`star_ratings__stars`). -/
def starsOf (db : DB) (nid : Nat) : List Nat :=
  (db.star_ratings.filter (fun r => r.note == nid)).map (fun r => r.stars)

/-- `Coalesce(Avg('star_ratings__stars'), Value(0.0))`: the mean of the
star values, defaulting to 0.0 when there are none. -/
def coalesceAvgStars (ss : List Nat) : Rat :=
  if ss.isEmpty then 0 else (ss.sum : Rat) / (ss.length : Rat)

/-- A note together with the annotations computed in `get_queryset`. -/
structure AnnotatedNote where
  note : Note
  calculated_average_rating : Rat
  calculated_likes_count : Nat
  calculated_bookmarks_count : Nat
  is_liked_by_current_user_annotated : Bool
  is_bookmarked_by_current_user_annotated : Bool
  deriving Repr, DecidableEq

/-- The annotation step of `get_queryset`: base aggregate annotations plus
the viewer-specific flags, which are constant `False` for an
unauthenticated viewer. -/
def annotateNote (db : DB) (v : Viewer) (n : Note) : AnnotatedNote :=
  { note := n
    calculated_average_rating := coalesceAvgStars (starsOf db n.id)
    calculated_likes_count := (likesOf db n.id).length
    calculated_bookmarks_count := (bookmarksOf db n.id).length
    is_liked_by_current_user_annotated :=
      match v with
      | Viewer.anon => false
      | Viewer.auth u => (likesOf db n.id).any (fun l => l.user == u.id)
    is_bookmarked_by_current_user_annotated :=
      match v with
      | Viewer.anon => false
      | Viewer.auth u => (bookmarksOf db n.id).any (fun b => b.user == u.id) }

/-- Ordering relation of `order_by('-created_at')`: newest first. -/
def createdDesc (x y : AnnotatedNote) : Prop :=
  y.note.created_at ≤ x.note.created_at

instance instCreatedDescDecidable : DecidableRel createdDesc :=
  fun x y => Nat.decLe y.note.created_at x.note.created_at

instance instCreatedDescTotal : IsTotal AnnotatedNote createdDesc :=
  ⟨fun x y => Nat.le_total y.note.created_at x.note.created_at⟩

instance instCreatedDescTrans : IsTrans AnnotatedNote createdDesc :=
  ⟨fun _ _ _ h h' => Nat.le_trans h' h⟩

/-- `order_by('-created_at')` as a sort over the embedded result list. -/
def orderByCreatedAtDesc (l : List AnnotatedNote) : List AnnotatedNote :=
  l.insertionSort createdDesc

/-- `NoteViewSet.get_queryset`: annotate all notes, hide unapproved ones
from non-staff viewers when the action is `list` or `retrieve`, and order
newest first. -/
def get_queryset (db : DB) (v : Viewer) (a : Action) : List AnnotatedNote :=
  let qs := db.notes.map (annotateNote db v)
  let qs :=
    if (a = Action.list ∨ a = Action.retrieve) ∧
        (v.isAuthenticated = false ∨ v.isStaff = false) then
      qs.filter (fun x => x.note.is_approved)
    else qs
  orderByCreatedAtDesc qs

/-- DRF's `self.get_object()`: look up the requested primary key inside
the action's queryset. -/
def get_object (db : DB) (v : Viewer) (a : Action) (pk : Nat) :
    Option AnnotatedNote :=
  (get_queryset db v a).find? (fun x => x.note.id == pk)

/-- Outcome of a toggle action.  On success it carries the response body
(message, new boolean state, recomputed count) and the updated store.
When the note cannot be resolved, DRF's `self.get_object()` raises
`Http404`, so the handler's `except Note.DoesNotExist` branch (which
would return 404) is unreachable; the `Http404` lands in the broad
`except Exception`, whose logging line also references the still-unbound
local `user` — either way the client receives a 500 server error and the
store is left as it was. -/
inductive ToggleResult where
  | ok : String → Bool → Nat → DB → ToggleResult
  | serverError : DB → ToggleResult
  deriving Repr, DecidableEq

/-- The store after a toggle action, whatever the outcome. -/
def ToggleResult.db : ToggleResult → DB
  | ToggleResult.ok _ _ _ d => d
  | ToggleResult.serverError d => d

/-- `NoteViewSet.toggle_like`: resolve the note, delete the first `Like`
row of (user, note) if one exists (new state off), otherwise create one
(new state on); respond with the new state and the note's like count
recomputed on the updated store.  A missing note takes the 500 error
path described at `ToggleResult`. -/
def toggle_like (db : DB) (u : User) (pk : Nat) : ToggleResult :=
  match get_object db (Viewer.auth u) Action.toggle_like pk with
  | none => ToggleResult.serverError db
  | some a =>
    let nid := a.note.id
    match db.likes.find? (fun l => l.user == u.id && l.note == nid) with
    | some _ =>
      let db2 : DB :=
        { db with likes := db.likes.eraseP (fun l => l.user == u.id && l.note == nid) }
      ToggleResult.ok "Note unliked successfully." false
        (likesOf db2 nid).length db2
    | none =>
      let db2 : DB := { db with likes := db.likes ++ [⟨u.id, nid⟩] }
      ToggleResult.ok "Note liked successfully." true
        (likesOf db2 nid).length db2

/-- `NoteViewSet.toggle_bookmark`: same flip for `Bookmark` rows, with
the same 500 error path for a missing note. -/
def toggle_bookmark (db : DB) (u : User) (pk : Nat) : ToggleResult :=
  match get_object db (Viewer.auth u) Action.toggle_bookmark pk with
  | none => ToggleResult.serverError db
  | some a =>
    let nid := a.note.id
    match db.bookmarks.find? (fun b => b.user == u.id && b.note == nid) with
    | some _ =>
      let db2 : DB :=
        { db with bookmarks := db.bookmarks.eraseP (fun b => b.user == u.id && b.note == nid) }
      ToggleResult.ok "Note removed from bookmarks." false
        (bookmarksOf db2 nid).length db2
    | none =>
      let db2 : DB := { db with bookmarks := db.bookmarks ++ [⟨u.id, nid⟩] }
      ToggleResult.ok "Note bookmarked successfully." true
        (bookmarksOf db2 nid).length db2

/-- Outcome of the download action: the reported (post-increment) count
and the updated store, or 404. -/
inductive DownloadResult where
  | ok : Nat → DB → DownloadResult
  | notFound : DB → DownloadResult
  deriving Repr, DecidableEq

/-- `NoteViewSet.download`: resolve the note, set
`download_count = F('download_count') + 1` on that row only
(`update_fields=['download_count']`), refresh, and report the updated
count. -/
def download (db : DB) (u : User) (pk : Nat) : DownloadResult :=
  match get_object db (Viewer.auth u) Action.download pk with
  | none => DownloadResult.notFound db
  | some _ =>
    let db2 : DB :=
      { db with notes := db.notes.map (fun m =>
          if m.id == pk then { m with download_count := m.download_count + 1 } else m) }
    match db2.notes.find? (fun m => m.id == pk) with
    | some m2 => DownloadResult.ok m2.download_count db2
    | none => DownloadResult.notFound db2

/-- Outcome of `perform_create` for ratings and comments: the row is
saved, or a DRF `ValidationError` (400) is raised, or the referenced note
does not exist (404 from `get_object_or_404`). -/
inductive CreateResult where
  | created : DB → CreateResult
  | validationError : String → DB → CreateResult
  | notFound : DB → CreateResult
  deriving Repr, DecidableEq

/-- Python falsiness of `request.data.get('note')`: absent, or a falsy
value such as `0`.  Django primary keys are positive, so a real note id
is never falsy. -/
def noteRefFalsy : Option Nat → Bool
  | none => true
  | some v => v == 0

/-- `StarRatingViewSet.perform_create`: require a note reference, resolve
it with `get_object_or_404`, reject a duplicate rating by the same user
on the same note with a validation error, otherwise save the new row with
`user=request.user, note=note_instance`. -/
def starRating_perform_create (db : DB) (u : User) (noteRef : Option Nat)
    (stars : Nat) : CreateResult :=
  if noteRefFalsy noteRef then
    CreateResult.validationError "This field is required to create a rating." db
  else
    match noteRef with
    | none => CreateResult.validationError "This field is required to create a rating." db
    | some nid =>
      match db.notes.find? (fun n => n.id == nid) with
      | none => CreateResult.notFound db
      | some n =>
        match db.star_ratings.find? (fun r => r.note == n.id && r.user == u.id) with
        | some _ =>
          CreateResult.validationError
            "You have already rated this note. You can update your existing rating by sending a PUT/PATCH request to its ID." db
        | none =>
          CreateResult.created
            { db with star_ratings := db.star_ratings ++ [⟨u.id, n.id, stars⟩] }

/-- `CommentViewSet.perform_create`: the same shape for comments. -/
def comment_perform_create (db : DB) (u : User) (noteRef : Option Nat)
    (text : String) : CreateResult :=
  if noteRefFalsy noteRef then
    CreateResult.validationError "This field is required to create a comment." db
  else
    match noteRef with
    | none => CreateResult.validationError "This field is required to create a comment." db
    | some nid =>
      match db.notes.find? (fun n => n.id == nid) with
      | none => CreateResult.notFound db
      | some n =>
        match db.comments.find? (fun c => c.note == n.id && c.user == u.id) with
        | some _ =>
          CreateResult.validationError
            "You have already commented on this note. You can update your existing comment by sending a PUT/PATCH request to its ID." db
        | none =>
          CreateResult.created
            { db with comments := db.comments ++ [⟨u.id, n.id, text⟩] }

/-- Outcome of a note update: saved, or rejected with `PermissionDenied`
(403), or 404; the rejecting outcomes leave the store unchanged. -/
inductive UpdateResult where
  | updated : DB → UpdateResult
  | permissionDenied : String → DB → UpdateResult
  | notFound : DB → UpdateResult
  deriving Repr, DecidableEq

/-- Modelled from the spec: the `IsOwnerOrReadOnly` permission class
(`notes/permissions.py`, not part of the examined sources) — owner-only
authorization for write requests, per the spec's "read-only vs.
owner-only field-level authorization". -/
def isOwnerOrReadOnlyAllows (u : User) (n : Note) : Bool :=
  u.id == n.uploader

/-- The update flow for a note: DRF resolves the object and checks the
`[IsAuthenticated, IsOwnerOrReadOnly]` permissions, then
`NoteViewSet.perform_update` additionally rejects a non-staff uploader
with `PermissionDenied`; on success the serializer saves the edited
fields. -/
def note_update (db : DB) (u : User) (pk : Nat)
    (newTitle newDescription : String) : UpdateResult :=
  match get_object db (Viewer.auth u) Action.update pk with
  | none => UpdateResult.notFound db
  | some a =>
    if isOwnerOrReadOnlyAllows u a.note = false then
      UpdateResult.permissionDenied "You do not have permission to perform this action." db
    else if u.id == a.note.uploader && !u.is_staff then
      UpdateResult.permissionDenied
        "You are not allowed to edit this note. Only administrators can edit notes after creation, or if you want to update it, please delete it and upload a new one." db
    else
      UpdateResult.updated
        { db with notes := db.notes.map (fun m =>
            if m.id == pk then { m with title := newTitle, description := newDescription } else m) }

/-- At most one row per (user, note) pair, for any engagement table with
`user` and `note` foreign keys. -/
def atMostOnePerPair {α : Type} (user note : α → Nat) (l : List α) : Prop :=
  ∀ uid nid : Nat,
    (l.filter (fun x => user x == uid && note x == nid)).length ≤ 1

/-- The Like-table invariant: at most one `Like` row per (user, note). -/
def atMostOneLikePerPair (l : List Like) : Prop :=
  atMostOnePerPair Like.user Like.note l

/-- The Bookmark-table invariant: at most one `Bookmark` row per
(user, note). -/
def atMostOneBookmarkPerPair (l : List Bookmark) : Prop :=
  atMostOnePerPair Bookmark.user Bookmark.note l

/-! Concrete sample data used to instantiate the theorems. -/

/-- A staff user. -/
def staffUser : User := ⟨1, true⟩

/-- A non-staff user who uploaded the sample notes. -/
def uploaderUser : User := ⟨2, false⟩

/-- Another non-staff user. -/
def plainUser : User := ⟨3, false⟩

/-- An approved sample note. -/
def approvedNote : Note :=
  ⟨1, 2, "Algorithms", "lecture notes", "algo.pdf", true, 10, 0⟩

/-- An unapproved sample note. -/
def pendingNote : Note :=
  ⟨2, 2, "Databases", "draft notes", "db.pdf", false, 20, 5⟩

/-- A small store: two notes, one like, one rating, one comment. -/
def sampleDB : DB :=
  ⟨[approvedNote, pendingNote], [⟨2, 1⟩], [], [⟨2, 1, 4⟩], [⟨2, 1, "nice"⟩]⟩

/-! Basic well-formedness of the store: primary keys of notes are unique,
as the database guarantees. -/

/-- Note primary keys are pairwise distinct. -/
def uniqueNoteIds (db : DB) : Prop :=
  (db.notes.map Note.id).Nodup

instance instUniqueNoteIdsDecidable (db : DB) : Decidable (uniqueNoteIds db) :=
  List.nodupDecidable _

/-- Two stored notes with the same primary key are the same note. -/
lemma note_eq_of_id_eq {db : DB} (hu : uniqueNoteIds db) {m n : Note}
    (hm : m ∈ db.notes) (hn : n ∈ db.notes) (h : m.id = n.id) : m = n :=
  List.inj_on_of_nodup_map hu hm hn h

/-- If a member `e` satisfies `p` and every member satisfying `p` equals
`e`, then `find?` returns `e`. -/
lemma find?_eq_some_of_unique {α : Type} (p : α → Bool) :
    ∀ (l : List α) (e : α), e ∈ l → p e = true →
      (∀ x ∈ l, p x = true → x = e) → l.find? p = some e := by
  intro l
  induction l with
  | nil => intro e he; cases he
  | cons a t ih =>
    intro e he hpe huniq
    by_cases hpa : p a = true
    · have ha : a = e := huniq a (List.mem_cons_self a t) hpa
      rw [List.find?_cons_of_pos _ hpa, ha]
    · have he' : e ∈ t := by
        rcases List.mem_cons.mp he with rfl | h
        · exact absurd hpe hpa
        · exact h
      rw [List.find?_cons_of_neg _ hpa]
      exact ih e he' hpe (fun x hx hp => huniq x (List.mem_cons_of_mem a hx) hp)

/-- Every element of the queryset is the annotation of a stored note. -/
lemma mem_of_mem_get_queryset {db : DB} {v : Viewer} {a : Action}
    {x : AnnotatedNote} (hx : x ∈ get_queryset db v a) :
    ∃ n ∈ db.notes, x = annotateNote db v n := by
  unfold get_queryset at hx
  simp only [orderByCreatedAtDesc, List.mem_insertionSort] at hx
  split at hx
  · rcases List.mem_filter.mp hx with ⟨hmem, _⟩
    rcases List.mem_map.mp hmem with ⟨n, hn, rfl⟩
    exact ⟨n, hn, rfl⟩
  · rcases List.mem_map.mp hx with ⟨n, hn, rfl⟩
    exact ⟨n, hn, rfl⟩

/-- For an action other than `list`/`retrieve` the approval filter is
skipped: the queryset is all annotated notes, newest first. -/
lemma get_queryset_eq_of_action {db : DB} {v : Viewer} {a : Action}
    (ha : a ≠ Action.list ∧ a ≠ Action.retrieve) :
    get_queryset db v a =
      orderByCreatedAtDesc (db.notes.map (annotateNote db v)) := by
  unfold get_queryset
  have hcond : ¬((a = Action.list ∨ a = Action.retrieve) ∧
      (v.isAuthenticated = false ∨ v.isStaff = false)) := by
    rintro ⟨h1 | h1, _⟩
    · exact ha.1 h1
    · exact ha.2 h1
  simp [hcond]

/-- For an action other than `list`/`retrieve`, `get_object` on the id of
a stored note resolves to that note's annotation. -/
lemma get_object_eq_annotate {db : DB} (v : Viewer) {a : Action} {n : Note}
    (ha : a ≠ Action.list ∧ a ≠ Action.retrieve)
    (hn : n ∈ db.notes) (hu : uniqueNoteIds db) :
    get_object db v a n.id = some (annotateNote db v n) := by
  rw [get_object, get_queryset_eq_of_action ha]
  unfold orderByCreatedAtDesc
  apply find?_eq_some_of_unique
  · exact (List.mem_insertionSort createdDesc).mpr (List.mem_map_of_mem _ hn)
  · simp [annotateNote]
  · intro x hx hpx
    have hx' := (List.mem_insertionSort createdDesc).mp hx
    rcases List.mem_map.mp hx' with ⟨m, hm, rfl⟩
    have hid : m.id = n.id := by simpa [annotateNote] using hpx
    rw [note_eq_of_id_eq hu hm hn hid]

/-- When no stored note has the requested id, `get_object` fails. -/
lemma get_object_eq_none {db : DB} (v : Viewer) (a : Action) {pk : Nat}
    (h : ∀ n ∈ db.notes, n.id ≠ pk) :
    get_object db v a pk = none := by
  rw [get_object, List.find?_eq_none]
  intro x hx
  rcases mem_of_mem_get_queryset hx with ⟨n, hn, rfl⟩
  simpa [annotateNote] using h n hn

/-- The queryset is always sorted newest-first. -/
lemma get_queryset_pairwise (db : DB) (v : Viewer) (a : Action) :
    (get_queryset db v a).Pairwise createdDesc := by
  unfold get_queryset orderByCreatedAtDesc
  exact List.sorted_insertionSort createdDesc _

/-- A staff viewer is authenticated. -/
lemma viewer_auth_of_staff {v : Viewer} (h : v.isStaff = true) :
    v.isAuthenticated = true := by
  cases v with
  | anon => simp [Viewer.isStaff] at h
  | auth u => rfl

/-- For a staff viewer no approval filter is applied, whatever the
action. -/
lemma get_queryset_eq_of_staff {db : DB} {v : Viewer} (a : Action)
    (hv : v.isStaff = true) :
    get_queryset db v a =
      orderByCreatedAtDesc (db.notes.map (annotateNote db v)) := by
  unfold get_queryset
  have hcond : ¬((a = Action.list ∨ a = Action.retrieve) ∧
      (v.isAuthenticated = false ∨ v.isStaff = false)) := by
    rintro ⟨_, h | h⟩
    · rw [viewer_auth_of_staff hv] at h; cases h
    · rw [hv] at h; cases h
  simp [hcond]

/-- For `list`/`retrieve` and a non-staff viewer, every queryset element
is approved. -/
lemma get_queryset_approved {db : DB} {v : Viewer} {a : Action}
    (ha : a = Action.list ∨ a = Action.retrieve) (hv : v.isStaff = false) :
    ∀ x ∈ get_queryset db v a, x.note.is_approved = true := by
  intro x hx
  unfold get_queryset at hx
  simp only [orderByCreatedAtDesc, List.mem_insertionSort] at hx
  rw [if_pos ⟨ha, Or.inr hv⟩] at hx
  exact (List.mem_filter.mp hx).2

/-- C1: for the `list` and `retrieve` actions, an anonymous or
authenticated non-staff viewer's queryset contains only notes with
`is_approved = true`; the queryset is ordered by `created_at` descending;
and a staff viewer's queryset contains every stored note, unapproved
ones as well. -/
theorem C1_visibility_and_order (db : DB) (v : Viewer) (a : Action)
    (ha : a = Action.list ∨ a = Action.retrieve) :
    (v.isStaff = false →
      ∀ x ∈ get_queryset db v a, x.note.is_approved = true) ∧
    (get_queryset db v a).Pairwise createdDesc ∧
    (v.isStaff = true →
      ∀ n ∈ db.notes, annotateNote db v n ∈ get_queryset db v a) := by
  refine ⟨fun hv => get_queryset_approved ha hv, get_queryset_pairwise db v a, ?_⟩
  intro hv n hn
  rw [get_queryset_eq_of_staff a hv]
  unfold orderByCreatedAtDesc
  exact (List.mem_insertionSort createdDesc).mpr (List.mem_map_of_mem _ hn)

/-- Witness for C1 at the sample store with an anonymous viewer. -/
theorem C1_visibility_and_order_witness :
    (Action.list = Action.list ∨ Action.list = Action.retrieve) ∧
    ((Viewer.anon.isStaff = false →
       ∀ x ∈ get_queryset sampleDB Viewer.anon Action.list,
         x.note.is_approved = true) ∧
     (get_queryset sampleDB Viewer.anon Action.list).Pairwise createdDesc ∧
     (Viewer.anon.isStaff = true →
       ∀ n ∈ sampleDB.notes,
         annotateNote sampleDB Viewer.anon n ∈
           get_queryset sampleDB Viewer.anon Action.list)) :=
  ⟨Or.inl rfl,
   C1_visibility_and_order sampleDB Viewer.anon Action.list (Or.inl rfl)⟩

/-- C8: for every queryset element, the annotated average rating is the
mean of the note's star values (0 when there are none), the annotated
like/bookmark counts count the note's Like/Bookmark rows, and for an
anonymous viewer both per-viewer flags are false. -/
theorem C8_annotation_semantics (db : DB) (v : Viewer) (a : Action)
    (x : AnnotatedNote) (hx : x ∈ get_queryset db v a) :
    (starsOf db x.note.id = [] → x.calculated_average_rating = 0) ∧
    (starsOf db x.note.id ≠ [] →
      x.calculated_average_rating * ((starsOf db x.note.id).length : Rat) =
        ((starsOf db x.note.id).sum : Rat)) ∧
    x.calculated_likes_count =
      (db.likes.filter (fun l => l.note == x.note.id)).length ∧
    x.calculated_bookmarks_count =
      (db.bookmarks.filter (fun b => b.note == x.note.id)).length ∧
    (v = Viewer.anon → x.is_liked_by_current_user_annotated = false ∧
      x.is_bookmarked_by_current_user_annotated = false) := by
  obtain ⟨n, _, rfl⟩ := mem_of_mem_get_queryset hx
  refine ⟨?_, ?_, rfl, rfl, ?_⟩
  · intro h
    have h' : starsOf db n.id = [] := h
    show coalesceAvgStars (starsOf db n.id) = 0
    rw [h']
    rfl
  · intro h
    have h' : starsOf db n.id ≠ [] := h
    have hlen : ((starsOf db n.id).length : Rat) ≠ 0 :=
      Nat.cast_ne_zero.mpr (List.length_pos.mpr h').ne'
    show coalesceAvgStars (starsOf db n.id) * _ = _
    unfold coalesceAvgStars
    rw [if_neg (by simpa using h')]
    exact div_mul_cancel₀ _ hlen
  · rintro rfl
    exact ⟨rfl, rfl⟩

/-- The sample anonymous listing evaluates to the approved note alone. -/
lemma sample_anon_listing :
    get_queryset sampleDB Viewer.anon Action.list =
      [annotateNote sampleDB Viewer.anon approvedNote] := rfl

/-- Witness for C8 at the first element of the sample anonymous listing. -/
theorem C8_annotation_semantics_witness :
    annotateNote sampleDB Viewer.anon approvedNote ∈
        get_queryset sampleDB Viewer.anon Action.list ∧
    ((starsOf sampleDB (annotateNote sampleDB Viewer.anon approvedNote).note.id = [] →
        (annotateNote sampleDB Viewer.anon approvedNote).calculated_average_rating = 0) ∧
     (starsOf sampleDB (annotateNote sampleDB Viewer.anon approvedNote).note.id ≠ [] →
        (annotateNote sampleDB Viewer.anon approvedNote).calculated_average_rating *
            ((starsOf sampleDB (annotateNote sampleDB Viewer.anon approvedNote).note.id).length : Rat) =
          ((starsOf sampleDB (annotateNote sampleDB Viewer.anon approvedNote).note.id).sum : Rat)) ∧
     (annotateNote sampleDB Viewer.anon approvedNote).calculated_likes_count =
       (sampleDB.likes.filter
         (fun l => l.note == (annotateNote sampleDB Viewer.anon approvedNote).note.id)).length ∧
     (annotateNote sampleDB Viewer.anon approvedNote).calculated_bookmarks_count =
       (sampleDB.bookmarks.filter
         (fun b => b.note == (annotateNote sampleDB Viewer.anon approvedNote).note.id)).length ∧
     (Viewer.anon = Viewer.anon →
       (annotateNote sampleDB Viewer.anon approvedNote).is_liked_by_current_user_annotated = false ∧
       (annotateNote sampleDB Viewer.anon approvedNote).is_bookmarked_by_current_user_annotated = false)) :=
  ⟨by rw [sample_anon_listing]; exact List.mem_singleton_self _,
   C8_annotation_semantics sampleDB Viewer.anon Action.list
     (annotateNote sampleDB Viewer.anon approvedNote)
     (by rw [sample_anon_listing]; exact List.mem_singleton_self _)⟩

/-- C5: the download action on an existing note reports exactly the old
count plus one, updates only that note's `download_count` (every other
field and every other table row is untouched), and never decreases the
count. -/
theorem C5_download_increment (db : DB) (u : User) (n : Note)
    (hn : n ∈ db.notes) (hu : uniqueNoteIds db) :
    ∃ db2, download db u n.id = DownloadResult.ok (n.download_count + 1) db2 ∧
      db2.notes = db.notes.map (fun m =>
        if m.id == n.id then { m with download_count := m.download_count + 1 }
        else m) ∧
      ({ n with download_count := n.download_count + 1 } : Note) ∈ db2.notes ∧
      (∀ m ∈ db.notes, m.id ≠ n.id → m ∈ db2.notes) ∧
      db2.likes = db.likes ∧ db2.bookmarks = db.bookmarks ∧
      db2.star_ratings = db.star_ratings ∧ db2.comments = db.comments := by
  have hobj : get_object db (Viewer.auth u) Action.download n.id =
      some (annotateNote db (Viewer.auth u) n) :=
    get_object_eq_annotate (Viewer.auth u) (by decide) hn hu
  have hfid : ∀ m : Note,
      ((fun m : Note =>
        if m.id == n.id then { m with download_count := m.download_count + 1 }
        else m) m).id = m.id := by
    intro m
    by_cases h : m.id == n.id <;> simp [h]
  have hfind : (db.notes.map (fun m : Note =>
      if m.id == n.id then { m with download_count := m.download_count + 1 }
      else m)).find? (fun m => m.id == n.id) =
      some { n with download_count := n.download_count + 1 } := by
    have hfn : (fun m : Note =>
        if m.id == n.id then { m with download_count := m.download_count + 1 }
        else m) n = { n with download_count := n.download_count + 1 } := by simp
    rw [← hfn]
    apply find?_eq_some_of_unique
    · exact List.mem_map_of_mem _ hn
    · rw [hfid n]; exact beq_self_eq_true n.id
    · intro x hx hpx
      rcases List.mem_map.mp hx with ⟨m, hm, rfl⟩
      have hid : m.id = n.id := by
        rw [hfid m] at hpx
        exact eq_of_beq hpx
      rw [note_eq_of_id_eq hu hm hn hid]
  refine ⟨{ db with notes := db.notes.map (fun m : Note =>
      if m.id == n.id then { m with download_count := m.download_count + 1 }
      else m) }, ?_, rfl, ?_, ?_, rfl, rfl, rfl, rfl⟩
  · unfold download
    rw [hobj]
    simp only [hfind]
  · have : ({ n with download_count := n.download_count + 1 } : Note) =
        (fun m : Note =>
          if m.id == n.id then { m with download_count := m.download_count + 1 }
          else m) n := by simp
    rw [this]
    exact List.mem_map_of_mem _ hn
  · intro m hm hne
    have : m = (fun m : Note =>
        if m.id == n.id then { m with download_count := m.download_count + 1 }
        else m) m := by
      simp [show (m.id == n.id) = false from beq_eq_false_iff_ne.mpr hne]
    rw [this]
    exact List.mem_map_of_mem _ hm

/-- Witness for C5: downloading the approved sample note. -/
theorem C5_download_increment_witness :
    approvedNote ∈ sampleDB.notes ∧ uniqueNoteIds sampleDB ∧
    (∃ db2, download sampleDB plainUser approvedNote.id =
        DownloadResult.ok (approvedNote.download_count + 1) db2 ∧
      db2.notes = sampleDB.notes.map (fun m =>
        if m.id == approvedNote.id then
          { m with download_count := m.download_count + 1 }
        else m) ∧
      ({ approvedNote with
          download_count := approvedNote.download_count + 1 } : Note) ∈ db2.notes ∧
      (∀ m ∈ sampleDB.notes, m.id ≠ approvedNote.id → m ∈ db2.notes) ∧
      db2.likes = sampleDB.likes ∧ db2.bookmarks = sampleDB.bookmarks ∧
      db2.star_ratings = sampleDB.star_ratings ∧
      db2.comments = sampleDB.comments) :=
  ⟨by decide, by decide,
   C5_download_increment sampleDB plainUser approvedNote (by decide) (by decide)⟩

/-- For a note id no stored note carries, both toggle actions surface
the broad-except 500 path and both create actions surface the
`get_object_or_404` 404 path, each returning the store unchanged. -/
lemma missing_note_error_paths (db : DB) (u : User) (pk stars : Nat)
    (text : String) (h : ∀ n ∈ db.notes, n.id ≠ pk) (hpk : 0 < pk) :
    toggle_like db u pk = ToggleResult.serverError db ∧
    toggle_bookmark db u pk = ToggleResult.serverError db ∧
    starRating_perform_create db u (some pk) stars = CreateResult.notFound db ∧
    comment_perform_create db u (some pk) text = CreateResult.notFound db := by
  have hfindn : db.notes.find? (fun n => n.id == pk) = none :=
    List.find?_eq_none.mpr (fun n hn => by simpa using h n hn)
  have hfalsy : noteRefFalsy (some pk) = false := by
    simp [noteRefFalsy]
    omega
  refine ⟨?_, ?_, ?_, ?_⟩
  · unfold toggle_like
    rw [get_object_eq_none (Viewer.auth u) Action.toggle_like h]
  · unfold toggle_bookmark
    rw [get_object_eq_none (Viewer.auth u) Action.toggle_bookmark h]
  · unfold starRating_perform_create
    rw [hfalsy]
    simp only [Bool.false_eq_true, if_false]
    rw [hfindn]
  · unfold comment_perform_create
    rw [hfalsy]
    simp only [Bool.false_eq_true, if_false]
    rw [hfindn]

/-- C7, evaluated at the failing input (note id 99, absent from the
sample store): rating and comment creation do respond 404 as the claim
says, but the toggle actions respond with a 500 server error — DRF's
`Http404` bypasses the handler's dead `except Note.DoesNotExist` branch
and is swallowed by the broad `except Exception` — so the claimed
uniform 404 does not hold.  In every case no engagement row is created
or deleted. -/
theorem C7_missing_note_error_paths :
    toggle_like sampleDB plainUser 99 = ToggleResult.serverError sampleDB ∧
    toggle_bookmark sampleDB plainUser 99 = ToggleResult.serverError sampleDB ∧
    starRating_perform_create sampleDB plainUser (some 99) 5 =
      CreateResult.notFound sampleDB ∧
    comment_perform_create sampleDB plainUser (some 99) "late" =
      CreateResult.notFound sampleDB :=
  missing_note_error_paths sampleDB plainUser 99 5 "late" (by decide) (by decide)

/-! List-level facts about the toggle mutations. -/

/-- Erasing the first `p`-match removes exactly one `q`-element when every
`p`-match is a `q`-match. -/
lemma length_filter_eraseP {α : Type} (p q : α → Bool) (l : List α)
    (hmem : ∃ e ∈ l, p e = true) (himp : ∀ x, p x = true → q x = true) :
    ((l.eraseP p).filter q).length + 1 = (l.filter q).length := by
  obtain ⟨e, he, hpe⟩ := hmem
  obtain ⟨a, l₁, l₂, _, hpa, hl, herase⟩ := List.exists_of_eraseP he hpe
  rw [herase, hl]
  simp only [List.filter_append, List.filter_cons, himp a hpa, if_true,
    List.length_append, List.length_cons]
  omega

/-- Under the at-most-one invariant, erasing the first `p`-match leaves no
`p`-match behind. -/
lemma filter_eraseP_self_eq_nil {α : Type} (p : α → Bool) (l : List α)
    (hmem : ∃ e ∈ l, p e = true) (hinv : (l.filter p).length ≤ 1) :
    (l.eraseP p).filter p = [] := by
  obtain ⟨e, he, hpe⟩ := hmem
  obtain ⟨a, l₁, l₂, hno, hpa, hl, herase⟩ := List.exists_of_eraseP he hpe
  have hl₁ : l₁.filter p = [] :=
    List.filter_eq_nil_iff.mpr (fun b hb => hno b hb)
  rw [hl, List.filter_append, List.filter_cons, if_pos hpa, hl₁] at hinv
  have hl₂ : l₂.filter p = [] := by
    simp only [List.nil_append, List.length_cons] at hinv
    exact List.length_eq_zero.mp (Nat.le_zero.mp (Nat.lt_succ_iff.mp
      (Nat.lt_of_succ_le hinv)))
  rw [herase, List.filter_append, hl₁, hl₂]
  rfl

/-- Appending a `q`-element adds exactly one to the `q`-count. -/
lemma length_filter_append_singleton {α : Type} (q : α → Bool) (l : List α)
    (e : α) (hq : q e = true) :
    ((l ++ [e]).filter q).length = (l.filter q).length + 1 := by
  simp [List.filter_append, List.filter_cons, hq]

/-- When the table holds no `p`-match, appending one yields exactly one. -/
lemma filter_append_singleton_of_none {α : Type} (p : α → Bool) (l : List α)
    (e : α) (hfind : l.find? p = none) (hp : p e = true) :
    (l ++ [e]).filter p = [e] := by
  have hl : l.filter p = [] :=
    List.filter_eq_nil_iff.mpr (List.find?_eq_none.mp hfind)
  rw [List.filter_append, hl, List.filter_cons, if_pos hp]
  rfl

/-- A table with at most one row satisfies the at-most-one invariant. -/
lemma atMostOnePerPair_of_short {α : Type} (user note : α → Nat)
    (l : List α) (h : l.length ≤ 1) : atMostOnePerPair user note l :=
  fun _ _ => le_trans (List.length_filter_le _ l) h

/-- The at-most-one invariant survives any sublist (in particular an
`eraseP`). -/
lemma atMostOnePerPair_sublist {α : Type} (user note : α → Nat)
    {l l' : List α} (hsub : List.Sublist l' l)
    (hinv : atMostOnePerPair user note l) :
    atMostOnePerPair user note l' :=
  fun uid nid =>
    le_trans (List.Sublist.length_le (List.Sublist.filter _ hsub)) (hinv uid nid)

/-- The at-most-one invariant survives appending a row whose pair is not
yet present. -/
lemma atMostOnePerPair_append {α : Type} (user note : α → Nat)
    {l : List α} (e : α)
    (hfind : l.find? (fun x => user x == user e && note x == note e) = none)
    (hinv : atMostOnePerPair user note l) :
    atMostOnePerPair user note (l ++ [e]) := by
  intro uid nid
  rw [List.filter_append]
  by_cases hpe : (user e == uid && note e == nid) = true
  · have hpe' : user e = uid ∧ note e = nid := by simpa using hpe
    have huid : user e = uid := hpe'.1
    have hnid : note e = nid := hpe'.2
    have hfl : l.filter (fun x => user x == uid && note x == nid) = [] := by
      apply List.filter_eq_nil_iff.mpr
      intro x hx hpx
      apply List.find?_eq_none.mp hfind x hx
      rw [huid, hnid]
      exact hpx
    rw [hfl, List.filter_cons, if_pos hpe]
    simp
  · rw [List.filter_cons, if_neg hpe]
    simpa using hinv uid nid

/-- Unfolding `toggle_like` once the note is resolved: the two branches of
the flip. -/
lemma toggle_like_eq_of_mem {db : DB} (u : User) {n : Note}
    (hn : n ∈ db.notes) (hu : uniqueNoteIds db) :
    toggle_like db u n.id =
      match db.likes.find? (fun l => l.user == u.id && l.note == n.id) with
      | some _ =>
        ToggleResult.ok "Note unliked successfully." false
          (likesOf
            { db with likes := db.likes.eraseP (fun l => l.user == u.id && l.note == n.id) }
            n.id).length
          { db with likes := db.likes.eraseP (fun l => l.user == u.id && l.note == n.id) }
      | none =>
        ToggleResult.ok "Note liked successfully." true
          (likesOf { db with likes := db.likes ++ [⟨u.id, n.id⟩] } n.id).length
          { db with likes := db.likes ++ [⟨u.id, n.id⟩] } := by
  unfold toggle_like
  rw [get_object_eq_annotate (Viewer.auth u) (by decide) hn hu]
  rfl

/-- Unfolding `toggle_bookmark` once the note is resolved. -/
lemma toggle_bookmark_eq_of_mem {db : DB} (u : User) {n : Note}
    (hn : n ∈ db.notes) (hu : uniqueNoteIds db) :
    toggle_bookmark db u n.id =
      match db.bookmarks.find? (fun b => b.user == u.id && b.note == n.id) with
      | some _ =>
        ToggleResult.ok "Note removed from bookmarks." false
          (bookmarksOf
            { db with bookmarks := db.bookmarks.eraseP (fun b => b.user == u.id && b.note == n.id) }
            n.id).length
          { db with bookmarks := db.bookmarks.eraseP (fun b => b.user == u.id && b.note == n.id) }
      | none =>
        ToggleResult.ok "Note bookmarked successfully." true
          (bookmarksOf { db with bookmarks := db.bookmarks ++ [⟨u.id, n.id⟩] } n.id).length
          { db with bookmarks := db.bookmarks ++ [⟨u.id, n.id⟩] } := by
  unfold toggle_bookmark
  rw [get_object_eq_annotate (Viewer.auth u) (by decide) hn hu]
  rfl

/-- C2: each toggle action flips the engagement row of (user, note): the
reported new state is on exactly when no row existed; after the call the
pair has no row (previous state on) or exactly one row (previous state
off); the reported count is the note's engagement count recomputed on the
updated store, one less or one more than before; nothing else in the
store changes. -/
theorem C2_toggle_semantics (db : DB) (u : User) (n : Note)
    (hn : n ∈ db.notes) (hu : uniqueNoteIds db)
    (hinvL : atMostOneLikePerPair db.likes)
    (hinvB : atMostOneBookmarkPerPair db.bookmarks) :
    (∃ msg cnt db2,
      toggle_like db u n.id = ToggleResult.ok msg
        (!db.likes.any (fun l => l.user == u.id && l.note == n.id)) cnt db2 ∧
      (db2.likes.filter (fun l => l.user == u.id && l.note == n.id)).length =
        (if db.likes.any (fun l => l.user == u.id && l.note == n.id) = true
         then 0 else 1) ∧
      cnt = (likesOf db2 n.id).length ∧
      (likesOf db2 n.id).length =
        (if db.likes.any (fun l => l.user == u.id && l.note == n.id) = true
         then (likesOf db n.id).length - 1 else (likesOf db n.id).length + 1) ∧
      db2.notes = db.notes ∧ db2.bookmarks = db.bookmarks ∧
      db2.star_ratings = db.star_ratings ∧ db2.comments = db.comments) ∧
    (∃ msg cnt db2,
      toggle_bookmark db u n.id = ToggleResult.ok msg
        (!db.bookmarks.any (fun b => b.user == u.id && b.note == n.id)) cnt db2 ∧
      (db2.bookmarks.filter (fun b => b.user == u.id && b.note == n.id)).length =
        (if db.bookmarks.any (fun b => b.user == u.id && b.note == n.id) = true
         then 0 else 1) ∧
      cnt = (bookmarksOf db2 n.id).length ∧
      (bookmarksOf db2 n.id).length =
        (if db.bookmarks.any (fun b => b.user == u.id && b.note == n.id) = true
         then (bookmarksOf db n.id).length - 1
         else (bookmarksOf db n.id).length + 1) ∧
      db2.notes = db.notes ∧ db2.likes = db.likes ∧
      db2.star_ratings = db.star_ratings ∧ db2.comments = db.comments) := by
  constructor
  · rw [toggle_like_eq_of_mem u hn hu]
    rcases hfind : db.likes.find? (fun l => l.user == u.id && l.note == n.id)
      with _ | e
    · have hany : db.likes.any (fun l => l.user == u.id && l.note == n.id) = false := by
        cases hA : db.likes.any (fun l => l.user == u.id && l.note == n.id)
        · rfl
        · obtain ⟨x, hx, hpx⟩ := List.any_eq_true.mp hA
          exact absurd hpx (List.find?_eq_none.mp hfind x hx)
      simp only [hfind, hany, Bool.not_false]
      refine ⟨_, _, _, rfl, ?_, rfl, ?_, rfl, rfl, rfl, rfl⟩
      · rw [if_neg (by simp)]
        show ((db.likes ++ [(⟨u.id, n.id⟩ : Like)]).filter
            (fun l => l.user == u.id && l.note == n.id)).length = 1
        rw [filter_append_singleton_of_none _ _ _ hfind (by simp)]
        rfl
      · rw [if_neg (by simp)]
        show ((db.likes ++ [(⟨u.id, n.id⟩ : Like)]).filter
            (fun l => l.note == n.id)).length =
          (db.likes.filter (fun l : Like => l.note == n.id)).length + 1
        exact length_filter_append_singleton _ db.likes _ (by simp)
    · have hpe := List.find?_some hfind
      have hme : e ∈ db.likes := List.mem_of_find?_eq_some hfind
      have hany : db.likes.any (fun l => l.user == u.id && l.note == n.id) = true :=
        List.any_eq_true.mpr ⟨e, hme, hpe⟩
      have hmem : ∃ x ∈ db.likes, (x.user == u.id && x.note == n.id) = true :=
        ⟨e, hme, hpe⟩
      simp only [hfind, hany, Bool.not_true]
      refine ⟨_, _, _, rfl, ?_, rfl, ?_, rfl, rfl, rfl, rfl⟩
      · rw [if_pos trivial]
        show ((db.likes.eraseP (fun l => l.user == u.id && l.note == n.id)).filter
            (fun l => l.user == u.id && l.note == n.id)).length = 0
        rw [filter_eraseP_self_eq_nil _ _ hmem (hinvL u.id n.id)]
        rfl
      · rw [if_pos trivial]
        have hcount := length_filter_eraseP
          (fun l : Like => l.user == u.id && l.note == n.id)
          (fun l : Like => l.note == n.id) db.likes hmem
          (fun x hx => by
            have hx' : x.user = u.id ∧ x.note = n.id := by simpa using hx
            simp [hx'.2])
        show ((db.likes.eraseP (fun l => l.user == u.id && l.note == n.id)).filter
            (fun l => l.note == n.id)).length =
          (db.likes.filter (fun l : Like => l.note == n.id)).length - 1
        omega
  · rw [toggle_bookmark_eq_of_mem u hn hu]
    rcases hfind : db.bookmarks.find? (fun b => b.user == u.id && b.note == n.id)
      with _ | e
    · have hany : db.bookmarks.any (fun b => b.user == u.id && b.note == n.id) = false := by
        cases hA : db.bookmarks.any (fun b => b.user == u.id && b.note == n.id)
        · rfl
        · obtain ⟨x, hx, hpx⟩ := List.any_eq_true.mp hA
          exact absurd hpx (List.find?_eq_none.mp hfind x hx)
      simp only [hfind, hany, Bool.not_false]
      refine ⟨_, _, _, rfl, ?_, rfl, ?_, rfl, rfl, rfl, rfl⟩
      · rw [if_neg (by simp)]
        show ((db.bookmarks ++ [(⟨u.id, n.id⟩ : Bookmark)]).filter
            (fun b => b.user == u.id && b.note == n.id)).length = 1
        rw [filter_append_singleton_of_none _ _ _ hfind (by simp)]
        rfl
      · rw [if_neg (by simp)]
        show ((db.bookmarks ++ [(⟨u.id, n.id⟩ : Bookmark)]).filter
            (fun b => b.note == n.id)).length =
          (db.bookmarks.filter (fun b : Bookmark => b.note == n.id)).length + 1
        exact length_filter_append_singleton _ db.bookmarks _ (by simp)
    · have hpe := List.find?_some hfind
      have hme : e ∈ db.bookmarks := List.mem_of_find?_eq_some hfind
      have hany : db.bookmarks.any (fun b => b.user == u.id && b.note == n.id) = true :=
        List.any_eq_true.mpr ⟨e, hme, hpe⟩
      have hmem : ∃ x ∈ db.bookmarks, (x.user == u.id && x.note == n.id) = true :=
        ⟨e, hme, hpe⟩
      simp only [hfind, hany, Bool.not_true]
      refine ⟨_, _, _, rfl, ?_, rfl, ?_, rfl, rfl, rfl, rfl⟩
      · rw [if_pos trivial]
        show ((db.bookmarks.eraseP (fun b => b.user == u.id && b.note == n.id)).filter
            (fun b => b.user == u.id && b.note == n.id)).length = 0
        rw [filter_eraseP_self_eq_nil _ _ hmem (hinvB u.id n.id)]
        rfl
      · rw [if_pos trivial]
        have hcount := length_filter_eraseP
          (fun b : Bookmark => b.user == u.id && b.note == n.id)
          (fun b : Bookmark => b.note == n.id) db.bookmarks hmem
          (fun x hx => by
            have hx' : x.user = u.id ∧ x.note = n.id := by simpa using hx
            simp [hx'.2])
        show ((db.bookmarks.eraseP (fun b => b.user == u.id && b.note == n.id)).filter
            (fun b => b.note == n.id)).length =
          (db.bookmarks.filter (fun b : Bookmark => b.note == n.id)).length - 1
        omega
/-- Witness for C2: the uploader toggling like and bookmark on the
approved sample note. -/
theorem C2_toggle_semantics_witness :
    approvedNote ∈ sampleDB.notes ∧ uniqueNoteIds sampleDB ∧
    atMostOneLikePerPair sampleDB.likes ∧
    atMostOneBookmarkPerPair sampleDB.bookmarks ∧
    ((∃ msg cnt db2,
      toggle_like sampleDB uploaderUser approvedNote.id = ToggleResult.ok msg
        (!sampleDB.likes.any (fun l => l.user == uploaderUser.id && l.note == approvedNote.id)) cnt db2 ∧
      (db2.likes.filter (fun l => l.user == uploaderUser.id && l.note == approvedNote.id)).length =
        (if sampleDB.likes.any (fun l => l.user == uploaderUser.id && l.note == approvedNote.id) = true
         then 0 else 1) ∧
      cnt = (likesOf db2 approvedNote.id).length ∧
      (likesOf db2 approvedNote.id).length =
        (if sampleDB.likes.any (fun l => l.user == uploaderUser.id && l.note == approvedNote.id) = true
         then (likesOf sampleDB approvedNote.id).length - 1
         else (likesOf sampleDB approvedNote.id).length + 1) ∧
      db2.notes = sampleDB.notes ∧ db2.bookmarks = sampleDB.bookmarks ∧
      db2.star_ratings = sampleDB.star_ratings ∧ db2.comments = sampleDB.comments) ∧
     (∃ msg cnt db2,
      toggle_bookmark sampleDB uploaderUser approvedNote.id = ToggleResult.ok msg
        (!sampleDB.bookmarks.any (fun b => b.user == uploaderUser.id && b.note == approvedNote.id)) cnt db2 ∧
      (db2.bookmarks.filter (fun b => b.user == uploaderUser.id && b.note == approvedNote.id)).length =
        (if sampleDB.bookmarks.any (fun b => b.user == uploaderUser.id && b.note == approvedNote.id) = true
         then 0 else 1) ∧
      cnt = (bookmarksOf db2 approvedNote.id).length ∧
      (bookmarksOf db2 approvedNote.id).length =
        (if sampleDB.bookmarks.any (fun b => b.user == uploaderUser.id && b.note == approvedNote.id) = true
         then (bookmarksOf sampleDB approvedNote.id).length - 1
         else (bookmarksOf sampleDB approvedNote.id).length + 1) ∧
      db2.notes = sampleDB.notes ∧ db2.likes = sampleDB.likes ∧
      db2.star_ratings = sampleDB.star_ratings ∧ db2.comments = sampleDB.comments)) :=
  ⟨by decide, by decide,
   atMostOnePerPair_of_short Like.user Like.note sampleDB.likes (by decide),
   atMostOnePerPair_of_short Bookmark.user Bookmark.note sampleDB.bookmarks (by decide),
   C2_toggle_semantics sampleDB uploaderUser approvedNote (by decide) (by decide)
     (atMostOnePerPair_of_short Like.user Like.note sampleDB.likes (by decide))
     (atMostOnePerPair_of_short Bookmark.user Bookmark.note sampleDB.bookmarks (by decide))⟩

/-- C3: for a user with no existing like on the note, toggling like twice
returns liked=true then liked=false and restores exactly the original
store, so the two count deltas cancel. -/
theorem C3_double_toggle (db : DB) (u : User) (n : Note)
    (hn : n ∈ db.notes) (hu : uniqueNoteIds db)
    (hnone : ∀ l ∈ db.likes, ¬(l.user = u.id ∧ l.note = n.id)) :
    ∃ db2,
      toggle_like db u n.id = ToggleResult.ok "Note liked successfully." true
        ((likesOf db n.id).length + 1) db2 ∧
      toggle_like db2 u n.id = ToggleResult.ok "Note unliked successfully." false
        (likesOf db n.id).length db := by
  have hfind : db.likes.find? (fun l => l.user == u.id && l.note == n.id) = none :=
    List.find?_eq_none.mpr (fun x hx hp => hnone x hx (by simpa using hp))
  refine ⟨{ db with likes := db.likes ++ [⟨u.id, n.id⟩] }, ?_, ?_⟩
  · rw [toggle_like_eq_of_mem u hn hu, hfind]
    have hc : (likesOf { db with likes := db.likes ++ [(⟨u.id, n.id⟩ : Like)] } n.id).length = (likesOf db n.id).length + 1 :=
      length_filter_append_singleton _ db.likes _ (by simp)
    rw [hc]
  · have hn2 : n ∈ ({ db with likes := db.likes ++ [(⟨u.id, n.id⟩ : Like)] } : DB).notes := hn
    have hu2 : uniqueNoteIds { db with likes := db.likes ++ [(⟨u.id, n.id⟩ : Like)] } := hu
    have hfind2 : ({ db with likes := db.likes ++ [(⟨u.id, n.id⟩ : Like)] } : DB).likes.find? (fun l => l.user == u.id && l.note == n.id) = some ⟨u.id, n.id⟩ := by
      show (db.likes ++ [(⟨u.id, n.id⟩ : Like)]).find? (fun l => l.user == u.id && l.note == n.id) = some ⟨u.id, n.id⟩
      rw [List.find?_append, hfind]
      show ([(⟨u.id, n.id⟩ : Like)].find? (fun l => l.user == u.id && l.note == n.id)) = some ⟨u.id, n.id⟩
      exact List.find?_cons_of_pos _ (by simp)
    have herase : (db.likes ++ [(⟨u.id, n.id⟩ : Like)]).eraseP (fun l => l.user == u.id && l.note == n.id) = db.likes := by
      rw [List.eraseP_append_right _ (List.find?_eq_none.mp hfind)]
      have h1 : ([(⟨u.id, n.id⟩ : Like)].eraseP (fun l => l.user == u.id && l.note == n.id)) = [] := by
        simp
      rw [h1]
      exact List.append_nil db.likes
    rw [toggle_like_eq_of_mem u hn2 hu2, hfind2]
    show ToggleResult.ok "Note unliked successfully." false (likesOf { db with likes := (db.likes ++ [(⟨u.id, n.id⟩ : Like)]).eraseP (fun l => l.user == u.id && l.note == n.id) } n.id).length { db with likes := (db.likes ++ [(⟨u.id, n.id⟩ : Like)]).eraseP (fun l => l.user == u.id && l.note == n.id) } = ToggleResult.ok "Note unliked successfully." false (likesOf db n.id).length db
    rw [herase]

/-- Witness for C3: a fresh user double-toggling like on the approved
sample note. -/
theorem C3_double_toggle_witness :
    approvedNote ∈ sampleDB.notes ∧ uniqueNoteIds sampleDB ∧
    (∀ l ∈ sampleDB.likes, ¬(l.user = plainUser.id ∧ l.note = approvedNote.id)) ∧
    (∃ db2,
      toggle_like sampleDB plainUser approvedNote.id =
        ToggleResult.ok "Note liked successfully." true
          ((likesOf sampleDB approvedNote.id).length + 1) db2 ∧
      toggle_like db2 plainUser approvedNote.id =
        ToggleResult.ok "Note unliked successfully." false
          (likesOf sampleDB approvedNote.id).length sampleDB) :=
  ⟨by decide, by decide, by decide,
   C3_double_toggle sampleDB plainUser approvedNote (by decide) (by decide)
     (by decide)⟩

/-- C9: a single toggle (like or bookmark) executed in a store satisfying
the at-most-one-row-per-(user, note) invariant leaves both engagement
tables satisfying it, whatever the requested id. -/
theorem C9_invariant_preserved (db : DB) (u : User) (pk : Nat)
    (hinvL : atMostOneLikePerPair db.likes)
    (hinvB : atMostOneBookmarkPerPair db.bookmarks) :
    (atMostOneLikePerPair (toggle_like db u pk).db.likes ∧
     atMostOneBookmarkPerPair (toggle_like db u pk).db.bookmarks) ∧
    (atMostOneLikePerPair (toggle_bookmark db u pk).db.likes ∧
     atMostOneBookmarkPerPair (toggle_bookmark db u pk).db.bookmarks) := by
  constructor
  · unfold toggle_like
    cases hobj : get_object db (Viewer.auth u) Action.toggle_like pk with
    | none => exact ⟨hinvL, hinvB⟩
    | some a =>
      simp only []
      cases hfind : db.likes.find? (fun l => l.user == u.id && l.note == a.note.id) with
      | some e =>
        exact ⟨atMostOnePerPair_sublist Like.user Like.note
          (List.eraseP_sublist _) hinvL, hinvB⟩
      | none =>
        exact ⟨atMostOnePerPair_append Like.user Like.note ⟨u.id, a.note.id⟩
          hfind hinvL, hinvB⟩
  · unfold toggle_bookmark
    cases hobj : get_object db (Viewer.auth u) Action.toggle_bookmark pk with
    | none => exact ⟨hinvL, hinvB⟩
    | some a =>
      simp only []
      cases hfind : db.bookmarks.find? (fun b => b.user == u.id && b.note == a.note.id) with
      | some e =>
        exact ⟨hinvL, atMostOnePerPair_sublist Bookmark.user Bookmark.note
          (List.eraseP_sublist _) hinvB⟩
      | none =>
        exact ⟨hinvL, atMostOnePerPair_append Bookmark.user Bookmark.note
          ⟨u.id, a.note.id⟩ hfind hinvB⟩

/-- Witness for C9: the uploader toggling on the approved sample note. -/
theorem C9_invariant_preserved_witness :
    atMostOneLikePerPair sampleDB.likes ∧
    atMostOneBookmarkPerPair sampleDB.bookmarks ∧
    ((atMostOneLikePerPair (toggle_like sampleDB uploaderUser 1).db.likes ∧
      atMostOneBookmarkPerPair (toggle_like sampleDB uploaderUser 1).db.bookmarks) ∧
     (atMostOneLikePerPair (toggle_bookmark sampleDB uploaderUser 1).db.likes ∧
      atMostOneBookmarkPerPair (toggle_bookmark sampleDB uploaderUser 1).db.bookmarks)) :=
  ⟨atMostOnePerPair_of_short Like.user Like.note sampleDB.likes (by decide),
   atMostOnePerPair_of_short Bookmark.user Bookmark.note sampleDB.bookmarks (by decide),
   C9_invariant_preserved sampleDB uploaderUser 1
     (atMostOnePerPair_of_short Like.user Like.note sampleDB.likes (by decide))
     (atMostOnePerPair_of_short Bookmark.user Bookmark.note sampleDB.bookmarks (by decide))⟩

/-- Reduction of `starRating_perform_create` for a resolvable note: the
flip on whether a duplicate rating exists. -/
lemma starRating_create_eq {db : DB} (u : User) {n : Note} (stars : Nat)
    (hn : n ∈ db.notes) (hu : uniqueNoteIds db) (hpos : 0 < n.id) :
    starRating_perform_create db u (some n.id) stars =
      (match db.star_ratings.find? (fun r => r.note == n.id && r.user == u.id) with
       | some _ =>
         CreateResult.validationError
           "You have already rated this note. You can update your existing rating by sending a PUT/PATCH request to its ID." db
       | none =>
         CreateResult.created
           { db with star_ratings := db.star_ratings ++ [⟨u.id, n.id, stars⟩] }) := by
  have hfalsy : noteRefFalsy (some n.id) = false := by
    simp [noteRefFalsy]
    omega
  have hfindn : db.notes.find? (fun m => m.id == n.id) = some n := by
    apply find?_eq_some_of_unique _ _ _ hn (beq_self_eq_true n.id)
    intro x hx hpx
    exact note_eq_of_id_eq hu hx hn (eq_of_beq hpx)
  unfold starRating_perform_create
  rw [hfalsy]
  simp only [Bool.false_eq_true, if_false, hfindn]

/-- Reduction of `comment_perform_create` for a resolvable note. -/
lemma comment_create_eq {db : DB} (u : User) {n : Note} (text : String)
    (hn : n ∈ db.notes) (hu : uniqueNoteIds db) (hpos : 0 < n.id) :
    comment_perform_create db u (some n.id) text =
      (match db.comments.find? (fun c => c.note == n.id && c.user == u.id) with
       | some _ =>
         CreateResult.validationError
           "You have already commented on this note. You can update your existing comment by sending a PUT/PATCH request to its ID." db
       | none =>
         CreateResult.created
           { db with comments := db.comments ++ [⟨u.id, n.id, text⟩] }) := by
  have hfalsy : noteRefFalsy (some n.id) = false := by
    simp [noteRefFalsy]
    omega
  have hfindn : db.notes.find? (fun m => m.id == n.id) = some n := by
    apply find?_eq_some_of_unique _ _ _ hn (beq_self_eq_true n.id)
    intro x hx hpx
    exact note_eq_of_id_eq hu hx hn (eq_of_beq hpx)
  unfold comment_perform_create
  rw [hfalsy]
  simp only [Bool.false_eq_true, if_false, hfindn]

/-- C4: creating a StarRating or Comment fails with a validation error
exactly when the request omits the note reference or the user already has
a rating/comment on that note; otherwise the new row is saved with the
requesting user and the resolved note, appended with every existing row
untouched. -/
theorem C4_create_uniqueness (db : DB) (u : User) (n : Note)
    (stars : Nat) (text : String) (noteRef : Option Nat)
    (hn : n ∈ db.notes) (hu : uniqueNoteIds db) (hpos : 0 < n.id)
    (href : noteRef = none ∨ noteRef = some n.id) :
    ((∃ msg, starRating_perform_create db u noteRef stars =
        CreateResult.validationError msg db) ↔
      (noteRef = none ∨ ∃ r ∈ db.star_ratings, r.user = u.id ∧ r.note = n.id)) ∧
    ((∃ msg, comment_perform_create db u noteRef text =
        CreateResult.validationError msg db) ↔
      (noteRef = none ∨ ∃ c ∈ db.comments, c.user = u.id ∧ c.note = n.id)) ∧
    (noteRef = some n.id →
      (∀ r ∈ db.star_ratings, ¬(r.user = u.id ∧ r.note = n.id)) →
      starRating_perform_create db u noteRef stars =
        CreateResult.created
          { db with star_ratings := db.star_ratings ++ [⟨u.id, n.id, stars⟩] }) ∧
    (noteRef = some n.id →
      (∀ c ∈ db.comments, ¬(c.user = u.id ∧ c.note = n.id)) →
      comment_perform_create db u noteRef text =
        CreateResult.created
          { db with comments := db.comments ++ [⟨u.id, n.id, text⟩] }) := by
  rcases href with rfl | rfl
  · refine ⟨?_, ?_, ?_, ?_⟩
    · constructor
      · intro _
        exact Or.inl rfl
      · intro _
        exact ⟨"This field is required to create a rating.", rfl⟩
    · constructor
      · intro _
        exact Or.inl rfl
      · intro _
        exact ⟨"This field is required to create a comment.", rfl⟩
    · intro h
      exact absurd h (by simp)
    · intro h
      exact absurd h (by simp)
  · have hred1 := starRating_create_eq u stars hn hu hpos
    have hred2 := comment_create_eq u text hn hu hpos
    refine ⟨?_, ?_, ?_, ?_⟩
    · rw [hred1]
      rcases hf : db.star_ratings.find? (fun r => r.note == n.id && r.user == u.id)
        with _ | r
      · rw [hf]
        constructor
        · rintro ⟨msg, hmsg⟩
          cases hmsg
        · rintro (h | ⟨r, hr, hur, hnr⟩)
          · exact absurd h (by simp)
          · have := List.find?_eq_none.mp hf r hr
            exact absurd (by simp [hur, hnr]) this
      · rw [hf]
        constructor
        · intro _
          have hpr := List.find?_some hf
          have h' : r.note = n.id ∧ r.user = u.id := by simpa using hpr
          exact Or.inr ⟨r, List.mem_of_find?_eq_some hf, h'.2, h'.1⟩
        · intro _
          exact ⟨_, rfl⟩
    · rw [hred2]
      rcases hf : db.comments.find? (fun c => c.note == n.id && c.user == u.id)
        with _ | c
      · rw [hf]
        constructor
        · rintro ⟨msg, hmsg⟩
          cases hmsg
        · rintro (h | ⟨c, hc, huc, hnc⟩)
          · exact absurd h (by simp)
          · have := List.find?_eq_none.mp hf c hc
            exact absurd (by simp [huc, hnc]) this
      · rw [hf]
        constructor
        · intro _
          have hpc := List.find?_some hf
          have h' : c.note = n.id ∧ c.user = u.id := by simpa using hpc
          exact Or.inr ⟨c, List.mem_of_find?_eq_some hf, h'.2, h'.1⟩
        · intro _
          exact ⟨_, rfl⟩
    · intro _ hdup
      rw [hred1]
      have hf : db.star_ratings.find? (fun r => r.note == n.id && r.user == u.id) = none := by
        apply List.find?_eq_none.mpr
        intro r hr hpr
        have h' : r.note = n.id ∧ r.user = u.id := by simpa using hpr
        exact hdup r hr ⟨h'.2, h'.1⟩
      rw [hf]
    · intro _ hdup
      rw [hred2]
      have hf : db.comments.find? (fun c => c.note == n.id && c.user == u.id) = none := by
        apply List.find?_eq_none.mpr
        intro c hc hpc
        have h' : c.note = n.id ∧ c.user = u.id := by simpa using hpc
        exact hdup c hc ⟨h'.2, h'.1⟩
      rw [hf]

/-- Witness for C4: the uploader, who already rated and commented on the
approved sample note, and for whom a second create is rejected. -/
theorem C4_create_uniqueness_witness :
    approvedNote ∈ sampleDB.notes ∧ uniqueNoteIds sampleDB ∧ 0 < approvedNote.id ∧
    ((some approvedNote.id : Option Nat) = none ∨
      (some approvedNote.id : Option Nat) = some approvedNote.id) ∧
    (((∃ msg, starRating_perform_create sampleDB uploaderUser (some approvedNote.id) 5 =
        CreateResult.validationError msg sampleDB) ↔
      ((some approvedNote.id : Option Nat) = none ∨
        ∃ r ∈ sampleDB.star_ratings, r.user = uploaderUser.id ∧ r.note = approvedNote.id)) ∧
    ((∃ msg, comment_perform_create sampleDB uploaderUser (some approvedNote.id) "again" =
        CreateResult.validationError msg sampleDB) ↔
      ((some approvedNote.id : Option Nat) = none ∨
        ∃ c ∈ sampleDB.comments, c.user = uploaderUser.id ∧ c.note = approvedNote.id)) ∧
    ((some approvedNote.id : Option Nat) = some approvedNote.id →
      (∀ r ∈ sampleDB.star_ratings, ¬(r.user = uploaderUser.id ∧ r.note = approvedNote.id)) →
      starRating_perform_create sampleDB uploaderUser (some approvedNote.id) 5 =
        CreateResult.created
          { sampleDB with star_ratings := sampleDB.star_ratings ++ [⟨uploaderUser.id, approvedNote.id, 5⟩] }) ∧
    ((some approvedNote.id : Option Nat) = some approvedNote.id →
      (∀ c ∈ sampleDB.comments, ¬(c.user = uploaderUser.id ∧ c.note = approvedNote.id)) →
      comment_perform_create sampleDB uploaderUser (some approvedNote.id) "again" =
        CreateResult.created
          { sampleDB with comments := sampleDB.comments ++ [⟨uploaderUser.id, approvedNote.id, "again"⟩] })) :=
  ⟨by decide, by decide, by decide, Or.inr rfl,
   C4_create_uniqueness sampleDB uploaderUser approvedNote 5 "again"
     (some approvedNote.id) (by decide) (by decide) (by decide) (Or.inr rfl)⟩

/-- C6: an update request by a non-staff user — the uploader or anyone
else — is rejected with a permission error and the store is returned
unchanged; consequently only a staff user can reach the successful save
path. -/
theorem C6_update_staff_only (db : DB) (u : User) (n : Note)
    (newTitle newDescription : String)
    (hn : n ∈ db.notes) (hu : uniqueNoteIds db) :
    (u.is_staff = false →
      ∃ msg, note_update db u n.id newTitle newDescription =
        UpdateResult.permissionDenied msg db) ∧
    (∀ db2, note_update db u n.id newTitle newDescription =
      UpdateResult.updated db2 → u.is_staff = true) := by
  have hobj : get_object db (Viewer.auth u) Action.update n.id =
      some (annotateNote db (Viewer.auth u) n) :=
    get_object_eq_annotate (Viewer.auth u) (by decide) hn hu
  have hred : note_update db u n.id newTitle newDescription =
      (if isOwnerOrReadOnlyAllows u n = false then
        UpdateResult.permissionDenied "You do not have permission to perform this action." db
      else if u.id == n.uploader && !u.is_staff then
        UpdateResult.permissionDenied "You are not allowed to edit this note. Only administrators can edit notes after creation, or if you want to update it, please delete it and upload a new one." db
      else
        UpdateResult.updated { db with notes := db.notes.map (fun m => if m.id == n.id then { m with title := newTitle, description := newDescription } else m) }) := by
    unfold note_update
    rw [hobj]
    rfl
  constructor
  · intro hstaff
    by_cases hown : isOwnerOrReadOnlyAllows u n = false
    · exact ⟨_, by rw [hred, if_pos hown]⟩
    · have huid : (u.id == n.uploader) = true := by
        cases h : isOwnerOrReadOnlyAllows u n
        · exact absurd h hown
        · exact h
      exact ⟨_, by
        rw [hred, if_neg hown,
          if_pos (show (u.id == n.uploader && !u.is_staff) = true by
            rw [huid, hstaff]
            rfl)]⟩
  · intro db2 hupd
    by_cases hstaff : u.is_staff = true
    · exact hstaff
    · exfalso
      have hstaff' : u.is_staff = false := by
        cases h : u.is_staff
        · rfl
        · exact absurd h hstaff
      by_cases hown : isOwnerOrReadOnlyAllows u n = false
      · rw [hred, if_pos hown] at hupd
        cases hupd
      · have huid : (u.id == n.uploader) = true := by
          cases h : isOwnerOrReadOnlyAllows u n
          · exact absurd h hown
          · exact h
        rw [hred, if_neg hown,
          if_pos (show (u.id == n.uploader && !u.is_staff) = true by
            rw [huid, hstaff']
            rfl)] at hupd
        cases hupd

/-- Witness for C6: the non-staff uploader attempting to edit their own
approved sample note. -/
theorem C6_update_staff_only_witness :
    approvedNote ∈ sampleDB.notes ∧ uniqueNoteIds sampleDB ∧
    ((uploaderUser.is_staff = false →
      ∃ msg, note_update sampleDB uploaderUser approvedNote.id "t2" "d2" =
        UpdateResult.permissionDenied msg sampleDB) ∧
     (∀ db2, note_update sampleDB uploaderUser approvedNote.id "t2" "d2" =
       UpdateResult.updated db2 → uploaderUser.is_staff = true)) :=
  ⟨by decide, by decide,
   C6_update_staff_only sampleDB uploaderUser approvedNote "t2" "d2"
     (by decide) (by decide)⟩

/-- The download action on an existing note succeeds, incrementing that
row's download count. -/
lemma download_ok {db : DB} (u : User) {n : Note}
    (hn : n ∈ db.notes) (hu : uniqueNoteIds db) :
    download db u n.id = DownloadResult.ok (n.download_count + 1)
      { db with notes := db.notes.map (fun m =>
          if m.id == n.id then { m with download_count := m.download_count + 1 }
          else m) } := by
  have hobj : get_object db (Viewer.auth u) Action.download n.id =
      some (annotateNote db (Viewer.auth u) n) :=
    get_object_eq_annotate (Viewer.auth u) (by decide) hn hu
  have hfid : ∀ m : Note,
      ((fun m : Note =>
        if m.id == n.id then { m with download_count := m.download_count + 1 }
        else m) m).id = m.id := by
    intro m
    by_cases h : m.id == n.id <;> simp [h]
  have hfind : (db.notes.map (fun m : Note =>
      if m.id == n.id then { m with download_count := m.download_count + 1 }
      else m)).find? (fun m => m.id == n.id) =
      some { n with download_count := n.download_count + 1 } := by
    have hfn : (fun m : Note =>
        if m.id == n.id then { m with download_count := m.download_count + 1 }
        else m) n = { n with download_count := n.download_count + 1 } := by simp
    rw [← hfn]
    apply find?_eq_some_of_unique
    · exact List.mem_map_of_mem _ hn
    · rw [hfid n]
      exact beq_self_eq_true n.id
    · intro x hx hpx
      rcases List.mem_map.mp hx with ⟨m, hm, rfl⟩
      have hid : m.id = n.id := by
        rw [hfid m] at hpx
        exact eq_of_beq hpx
      rw [note_eq_of_id_eq hu hm hn hid]
  unfold download
  rw [hobj]
  simp only [hfind]

/-- C10: the approval filter applies only to `list`/`retrieve`: for an
authenticated non-staff user, an unapproved note still resolves through
`get_object` for the download and toggle actions, the download succeeds
and increments the count, both toggles succeed — while the same note is
absent from that user's retrieve queryset. -/
theorem C10_engagement_ignores_approval (db : DB) (u : User) (n : Note)
    (hn : n ∈ db.notes) (hu : uniqueNoteIds db)
    (hstaff : u.is_staff = false) (hunapp : n.is_approved = false) :
    get_object db (Viewer.auth u) Action.download n.id =
      some (annotateNote db (Viewer.auth u) n) ∧
    get_object db (Viewer.auth u) Action.toggle_like n.id =
      some (annotateNote db (Viewer.auth u) n) ∧
    get_object db (Viewer.auth u) Action.toggle_bookmark n.id =
      some (annotateNote db (Viewer.auth u) n) ∧
    (∃ db2, download db u n.id =
      DownloadResult.ok (n.download_count + 1) db2) ∧
    (∃ msg flag cnt db2, toggle_like db u n.id =
      ToggleResult.ok msg flag cnt db2) ∧
    (∃ msg flag cnt db2, toggle_bookmark db u n.id =
      ToggleResult.ok msg flag cnt db2) ∧
    annotateNote db (Viewer.auth u) n ∉
      get_queryset db (Viewer.auth u) Action.retrieve := by
  refine ⟨get_object_eq_annotate (Viewer.auth u) (by decide) hn hu,
    get_object_eq_annotate (Viewer.auth u) (by decide) hn hu,
    get_object_eq_annotate (Viewer.auth u) (by decide) hn hu,
    ⟨_, download_ok u hn hu⟩, ?_, ?_, ?_⟩
  · rcases hf : db.likes.find? (fun l => l.user == u.id && l.note == n.id)
      with _ | e
    · exact ⟨_, _, _, _, by rw [toggle_like_eq_of_mem u hn hu, hf]⟩
    · exact ⟨_, _, _, _, by rw [toggle_like_eq_of_mem u hn hu, hf]⟩
  · rcases hf : db.bookmarks.find? (fun b => b.user == u.id && b.note == n.id)
      with _ | e
    · exact ⟨_, _, _, _, by rw [toggle_bookmark_eq_of_mem u hn hu, hf]⟩
    · exact ⟨_, _, _, _, by rw [toggle_bookmark_eq_of_mem u hn hu, hf]⟩
  · intro hmem
    have happ := get_queryset_approved (Or.inr rfl)
      (show (Viewer.auth u).isStaff = false from hstaff) _ hmem
    rw [show (annotateNote db (Viewer.auth u) n).note = n from rfl, hunapp]
      at happ
    cases happ

/-- Witness for C10: a plain user engaging with the unapproved sample
note. -/
theorem C10_engagement_ignores_approval_witness :
    pendingNote ∈ sampleDB.notes ∧ uniqueNoteIds sampleDB ∧
    plainUser.is_staff = false ∧ pendingNote.is_approved = false ∧
    (get_object sampleDB (Viewer.auth plainUser) Action.download pendingNote.id =
      some (annotateNote sampleDB (Viewer.auth plainUser) pendingNote) ∧
    get_object sampleDB (Viewer.auth plainUser) Action.toggle_like pendingNote.id =
      some (annotateNote sampleDB (Viewer.auth plainUser) pendingNote) ∧
    get_object sampleDB (Viewer.auth plainUser) Action.toggle_bookmark pendingNote.id =
      some (annotateNote sampleDB (Viewer.auth plainUser) pendingNote) ∧
    (∃ db2, download sampleDB plainUser pendingNote.id =
      DownloadResult.ok (pendingNote.download_count + 1) db2) ∧
    (∃ msg flag cnt db2, toggle_like sampleDB plainUser pendingNote.id =
      ToggleResult.ok msg flag cnt db2) ∧
    (∃ msg flag cnt db2, toggle_bookmark sampleDB plainUser pendingNote.id =
      ToggleResult.ok msg flag cnt db2) ∧
    annotateNote sampleDB (Viewer.auth plainUser) pendingNote ∉
      get_queryset sampleDB (Viewer.auth plainUser) Action.retrieve) :=
  ⟨by decide, by decide, by decide, by decide,
   C10_engagement_ignores_approval sampleDB plainUser pendingNote
     (by decide) (by decide) (by decide) (by decide)⟩

end EduMetro
